import Mathlib

set_option maxRecDepth 8000

/-!
Shallow embedding of `src/simulation.py` (`run_simulation` and its two inner
processes `customer` and `customer_generator`), together with the behaviour of
the external collaborators the function calls into:

* `random.seed` / `random.expovariate` from CPython's `random` module
  (`expovariate(lambd)` is `-log(1 - random()) / lambd`, raising
  `ZeroDivisionError` when `lambd == 0`);
* `simpy.Resource` (raises `ValueError` when `capacity <= 0`, otherwise a
  FIFO queue over `capacity` identical servers);
* `simpy.Environment.run(until=T)` (raises `ValueError` when `T <= now`,
  otherwise processes exactly the events scheduled at times `< T`: the
  internal stop event at `T` has `URGENT` priority, so events at time `T`
  itself are never dispatched);
* `simpy.Environment.timeout(d)` (raises `ValueError` when `d < 0`).

Floats are idealised as `ℚ` and the transcendental seed-to-stream map of the
Mersenne Twister is an explicit parameter `mt : ℤ → ℕ → ℚ`, where `mt seed n`
stands for the value `-log(1 - u_n)` obtained from the `n`-th uniform draw
after `random.seed(seed)`; for the real generator these values are always
nonnegative, which theorems assume explicitly where they need it.
-/

/-- State of Python's process-global `random` module as `run_simulation` uses
it: `exps n` is the `-log(1 - u)` part of the `n`-th `expovariate` draw since
the last reseeding, `pos` is the number of draws consumed so far. -/
structure PyRandomState where
  exps : ℕ → ℚ
  pos : ℕ

/-- `random.seed(s)`: discards the previous global state and installs the
stream determined by the seed (line 56 of `src/simulation.py`). -/
def PyRandomState.seed (mt : ℤ → ℕ → ℚ) (s : ℤ) : PyRandomState :=
  ⟨mt s, 0⟩

/-- The exceptions a call to `run_simulation` can propagate.  None of them is
raised by `src/simulation.py` itself (the function performs no validation);
they come from `simpy` and `random` as documented on each constructor.
`fuelExhausted` is an artifact of the embedding: the event loop is run on an
explicit event budget, and theorems that need the loop to finish carry the
corresponding hypothesis. -/
inductive SimError where
  /-- `simpy.Resource.__init__`: `ValueError` when `capacity <= 0` (line 58). -/
  | invalidCapacity
  /-- `simpy.Environment.run`: `ValueError` when `until <= now` (line 61). -/
  | untilNotInFuture
  /-- `random.expovariate(0)`: `ZeroDivisionError` (line 51). -/
  | zeroDivision
  /-- `simpy.Timeout`: `ValueError` on a negative delay (lines 38 and 51). -/
  | negativeDelay
  /-- Embedding artifact: event budget exceeded. -/
  | fuelExhausted
deriving Repr, DecidableEq

/-- The dictionary returned at lines 63-67 of `src/simulation.py`. -/
structure SimResult where
  total_customers : ℕ
  avg_wait_time : Option ℚ
  avg_system_time : Option ℚ
deriving Repr, DecidableEq

/-- `random.expovariate(lambd)`: consumes one uniform draw and returns
`-log(1 - u) / lambd`; the draw is consumed before the division, so the state
advances even on the `ZeroDivisionError` path. -/
def expovariate (lambd : ℚ) (st : PyRandomState) :
    Except SimError ℚ × PyRandomState :=
  (if lambd = 0 then .error .zeroDivision else .ok (st.exps st.pos / lambd),
   ⟨st.exps, st.pos + 1⟩)

/-- The `customer_generator` process (lines 47-53): starting from virtual time
`t`, repeatedly draw an inter-arrival gap, sleep for it and spawn the next
customer.  The returned list holds the arrival times that fall strictly before
the horizon `T` — the `env.run(until=T)` stop event has priority over ordinary
events at `T`, so an arrival timeout at a time `≥ T` is never dispatched and
the generator never wakes again.  A negative gap makes `env.timeout` raise at
creation.  `fuel` bounds the number of loop iterations (the real loop is
unbounded; theorems that rely on completion hypothesise enough fuel). -/
def customer_generator (rate T : ℚ) :
    ℕ → ℚ → PyRandomState → Except SimError (List ℚ) × PyRandomState
  | 0, _, st => (.error .fuelExhausted, st)
  | fuel + 1, t, st =>
    match expovariate rate st with
    | (.error e, st') => (.error e, st')
    | (.ok gap, st') =>
      if gap < 0 then (.error .negativeDelay, st')
      else if T ≤ t + gap then (.ok [], st')
      else
        match customer_generator rate T fuel (t + gap) st' with
        | (.error e, st'') => (.error e, st'')
        | (.ok rest, st'') => (.ok ((t + gap) :: rest), st'')

/-- Auxiliary maximum for the service-start times: `chainMax c s a i K` is
`max` over `k ≤ K` of `a (i - k*c) + k*s`. -/
def chainMax (c : ℕ) (s : ℚ) (a : ℕ → ℚ) (i : ℕ) : ℕ → ℚ
  | 0 => a i
  | k + 1 => max (chainMax c s a i k) (a (i - (k + 1) * c) + ((k : ℚ) + 1) * s)

/-- Service-start time of the `i`-th spawned customer (0-indexed, arrival
order) for a FIFO `simpy.Resource` of capacity `c` when every customer holds a
server for the same duration `s` (line 38 fixes the service time per run).
Because service times are equal and grants are FIFO, customers start and
depart in arrival order and the `i`-th start is
`a i` for `i < c` and `max (a i) (startTime (i - c) + s)` otherwise — the
server freed by the departure of customer `i - c` is handed over at that same
instant.  `startTime` is that recursion in closed (structurally recursive)
form; the lemmas `startTime_of_lt` and `startTime_rec` below re-establish the
recursion. -/
def startTime (c : ℕ) (s : ℚ) (a : ℕ → ℚ) (i : ℕ) : ℚ :=
  chainMax c s a i (i / c)

/-- The `wait_times` list (appended at line 34, at the instant service starts):
customer `i` contributes `start - arrival` iff its start event is dispatched,
i.e. iff its start time is strictly before the horizon. -/
def wait_times (c : ℕ) (s T : ℚ) (arr : List ℚ) : List ℚ :=
  (List.range arr.length).filterMap fun i =>
    if startTime c s (fun j => arr.getD j 0) i < T
    then some (startTime c s (fun j => arr.getD j 0) i - arr.getD i 0)
    else none

/-- The `system_times` list (appended at line 42, after the service hold):
customer `i` contributes `start + s - arrival` iff its departure timeout is
dispatched, i.e. iff `start + s` is strictly before the horizon. -/
def system_times (c : ℕ) (s T : ℚ) (arr : List ℚ) : List ℚ :=
  (List.range arr.length).filterMap fun i =>
    if startTime c s (fun j => arr.getD j 0) i + s < T
    then some (startTime c s (fun j => arr.getD j 0) i + s - arr.getD i 0)
    else none

/-- `np.mean` on a nonempty list (the empty case is guarded at lines 65-66). -/
def np_mean (l : List ℚ) : ℚ :=
  l.sum / l.length

/-- Python's `round` to the nearest integer, ties to the even integer. -/
def roundHalfEven (q : ℚ) : ℤ :=
  if q - ⌊q⌋ < 1 / 2 then ⌊q⌋
  else if 1 / 2 < q - ⌊q⌋ then ⌊q⌋ + 1
  else if ⌊q⌋ % 2 = 0 then ⌊q⌋ else ⌊q⌋ + 1

/-- `round(x, 2)` as used at lines 65-66 (idealised over `ℚ`). -/
def round2 (q : ℚ) : ℚ :=
  (roundHalfEven (q * 100) : ℚ) / 100

/-- The dictionary built at lines 63-67: `customers_served` is incremented
exactly when a system time is appended (line 43), so it equals the length of
`system_times`. -/
def mkResult (c : ℕ) (s T : ℚ) (arr : List ℚ) : SimResult where
  total_customers := (system_times c s T arr).length
  avg_wait_time :=
    if wait_times c s T arr = [] then none
    else some (round2 (np_mean (wait_times c s T arr)))
  avg_system_time :=
    if system_times c s T arr = [] then none
    else some (round2 (np_mean (system_times c s T arr)))

/-- `run_simulation` (lines 5-67).  In source order: `random.seed` (line 56,
before anything can fail), `simpy.Resource` creation (line 58, raises on
`capacity <= 0`), `env.run(until=sim_time)` (line 61, raises on
`sim_time <= 0`, otherwise drives the generator and customer processes), and
the result dictionary (lines 63-67).  A negative `service_time` makes the
first customer's `env.timeout(service_time)` (line 38) raise as soon as any
customer starts service, which happens iff at least one arrival falls inside
the horizon; the raised exception is the same `ValueError` as for a negative
inter-arrival gap, so the embedding reports it after generation without
tracking which of the two timeouts fired first.  `verbose` only controls
`print` calls and the incoming global random state `g` is overwritten by the
reseeding before it can be read. -/
def run_simulation (mt : ℤ → ℕ → ℚ) (n_servers : ℤ) (arrival_rate : ℚ)
    (service_time : ℚ) (sim_time : ℚ) (random_seed : ℤ) (verbose : Bool)
    (fuel : ℕ) (g : PyRandomState) :
    Except SimError SimResult × PyRandomState :=
  if n_servers ≤ 0 then
    (.error .invalidCapacity, PyRandomState.seed mt random_seed)
  else if sim_time ≤ 0 then
    (.error .untilNotInFuture, PyRandomState.seed mt random_seed)
  else
    match customer_generator arrival_rate sim_time fuel 0
        (PyRandomState.seed mt random_seed) with
    | (.error e, st) => (.error e, st)
    | (.ok arr, st) =>
      if service_time < 0 ∧ arr ≠ [] then (.error .negativeDelay, st)
      else (.ok (mkResult n_servers.toNat service_time sim_time arr), st)

/-- `true` iff the call returned normally instead of raising. -/
def isOkE (e : Except SimError SimResult) : Bool :=
  match e with
  | .ok _ => true
  | .error _ => false

/-! ### Concrete instances used to exercise the embedding

Each `mt…` definition is one possible seed-to-stream map: any sequence of
nonnegative rationals is a legitimate value for the `-log(1 - u)` draws, so a
run of the embedding on such a stream is a run the modelled program can
exhibit. -/

/-- An arbitrary pre-call state of the global `random` module. -/
def gZero : PyRandomState :=
  ⟨fun _ => 0, 0⟩

/-- A second, different pre-call state of the global `random` module. -/
def gOne : PyRandomState :=
  ⟨fun _ => 1, 7⟩

/-- Stream of constant unit draws. -/
def mtOnes : ℤ → ℕ → ℚ :=
  fun _ _ => 1

/-- Constant-zero arrival sequence. -/
def zeroSeq : ℕ → ℚ :=
  fun _ => 0

/-- Draws 1, 10, 10, …: one early arrival, then nothing inside a short horizon. -/
def mtC2 : ℤ → ℕ → ℚ :=
  fun _ n => if n = 0 then 1 else 10

/-- Draws 1, 1, 10, …: two arrivals inside the horizon. -/
def mtC5 : ℤ → ℕ → ℚ :=
  fun _ n => if n ≤ 1 then 1 else 10

/-- Draws 2, 9, 9, …: one arrival whose service outlasts the horizon. -/
def mtC6 : ℤ → ℕ → ℚ :=
  fun _ n => if n = 0 then 2 else 9

/-- Draws 1/10, 2/25, 1/100, 1/100, 2, 2, …: a burst of four closely spaced
arrivals followed by a long gap. -/
def mtC7 : ℤ → ℕ → ℚ :=
  fun _ n => [1/10, 2/25, 1/100, 1/100, 2].getD n 2

/-- The arrival times generated by `mtC7` at rate 1. -/
def arrC7 : List ℚ :=
  [1/10, 9/50, 19/100, 1/5]

/-! ### Fidelity lemmas: `startTime` satisfies the FIFO-resource recursion -/

/-- A customer with index below the capacity finds a free server on arrival. -/
theorem startTime_of_lt (c : ℕ) (s : ℚ) (a : ℕ → ℚ) (i : ℕ) (h : i < c) :
    startTime c s a i = a i := by
  unfold startTime
  rw [Nat.div_eq_of_lt h]
  rfl

/-- Unrolling step for `chainMax` along the chain `i, i - c, i - 2c, …`. -/
theorem chainMax_succ_shift (c : ℕ) (s : ℚ) (a : ℕ → ℚ) (i : ℕ) (hci : c ≤ i) :
    ∀ k, chainMax c s a i (k + 1) = max (a i) (chainMax c s a (i - c) k + s) := by
  intro k
  induction k with
  | zero =>
    show max (chainMax c s a i 0) (a (i - 1 * c) + ((0 : ℚ) + 1) * s) = _
    simp [chainMax]
  | succ k ih =>
    have hs2 : a (i - (k + 1 + 1) * c) + (((k + 1 : ℕ) : ℚ) + 1) * s =
        (a ((i - c) - (k + 1) * c) + ((k : ℚ) + 1) * s) + s := by
      have hidx : i - (k + 1 + 1) * c = (i - c) - (k + 1) * c := by
        rw [Nat.sub_sub, Nat.succ_mul]
        omega
      rw [hidx]
      push_cast
      ring
    rw [chainMax, ih]
    conv_rhs => rw [chainMax]
    rw [max_assoc, hs2, ← max_add_add_right]

/-- The closed form `startTime` satisfies the recursion of a FIFO resource of
capacity `c` with equal service times: past the first `c` customers, customer
`i` starts when it has arrived and the departure of customer `i - c` has freed
a server. -/
theorem startTime_rec (c : ℕ) (s : ℚ) (a : ℕ → ℚ) (i : ℕ) (hc : 0 < c) (hci : c ≤ i) :
    startTime c s a i = max (a i) (startTime c s a (i - c) + s) := by
  unfold startTime
  rw [Nat.div_eq_sub_div hc hci]
  exact chainMax_succ_shift c s a i hci ((i - c) / c)

/-- Each term of the chain is a lower bound for `chainMax`. -/
theorem le_chainMax_term (c : ℕ) (s : ℚ) (a : ℕ → ℚ) (i : ℕ) :
    ∀ K k, k ≤ K → a (i - k * c) + (k : ℚ) * s ≤ chainMax c s a i K := by
  intro K
  induction K with
  | zero =>
    intro k hk
    interval_cases k
    simp [chainMax]
  | succ K ih =>
    intro k hk
    rcases Nat.lt_or_ge k (K + 1) with h | h
    · exact le_trans (ih k (Nat.lt_succ_iff.mp h)) (le_max_left _ _)
    · have hkK : k = K + 1 := le_antisymm hk h
      subst hkK
      show _ ≤ max _ (a (i - (K + 1) * c) + ((K : ℚ) + 1) * s)
      have hcast : ((K + 1 : ℕ) : ℚ) = (K : ℚ) + 1 := by push_cast; ring
      rw [hcast]
      exact le_max_right _ _

/-- `chainMax` is below any common upper bound of its terms. -/
theorem chainMax_le (c : ℕ) (s : ℚ) (a : ℕ → ℚ) (i : ℕ) (x : ℚ) :
    ∀ K, (∀ k, k ≤ K → a (i - k * c) + (k : ℚ) * s ≤ x) → chainMax c s a i K ≤ x := by
  intro K
  induction K with
  | zero =>
    intro h
    simpa using h 0 le_rfl
  | succ K ih =>
    intro h
    refine max_le (ih fun k hk => h k (le_trans hk (Nat.le_succ _))) ?_
    have hcast : ((K + 1 : ℕ) : ℚ) = (K : ℚ) + 1 := by push_cast; ring
    have := h (K + 1) le_rfl
    rwa [hcast] at this

/-- No customer starts service before it arrives. -/
theorem le_startTime (c : ℕ) (s : ℚ) (a : ℕ → ℚ) (i : ℕ) :
    a i ≤ startTime c s a i := by
  simpa using le_chainMax_term c s a i (i / c) 0 (Nat.zero_le _)

/-- Raising the capacity never delays any individual customer's service start
(arrival times are non-decreasing for the generated arrival sequence). -/
theorem startTime_anti_capacity (s : ℚ) (a : ℕ → ℚ)
    (ha : ∀ m n : ℕ, m ≤ n → a m ≤ a n) (c1 c2 : ℕ) (h1 : 0 < c1) (h12 : c1 ≤ c2)
    (i : ℕ) : startTime c2 s a i ≤ startTime c1 s a i := by
  unfold startTime
  refine chainMax_le c2 s a i _ _ fun k hk => ?_
  have hdiv : i / c2 ≤ i / c1 := Nat.div_le_div_left h12 h1
  refine le_trans ?_ (le_chainMax_term c1 s a i (i / c1) k (le_trans hk hdiv))
  have hsub : i - k * c2 ≤ i - k * c1 :=
    Nat.sub_le_sub_left (Nat.mul_le_mul_left k h12) i
  exact add_le_add_right (ha _ _ hsub) _

/-! ### Behaviour of the generator and of `run_simulation`'s control flow -/

/-- The generator only advances the draw position of the global random state;
the installed stream itself is never replaced after the reseeding. -/
theorem customer_generator_exps (rate T : ℚ) :
    ∀ (fuel : ℕ) (t : ℚ) (st : PyRandomState),
      ((customer_generator rate T fuel t st).2).exps = st.exps := by
  intro fuel
  induction fuel with
  | zero => intro t st; rfl
  | succ n ih =>
    intro t st
    unfold customer_generator expovariate
    by_cases hr : rate = 0
    · simp [hr]
    · simp only [hr, if_false]
      by_cases hg : st.exps st.pos / rate < 0
      · simp [hg]
      · simp only [hg, if_false]
        by_cases hT : T ≤ t + st.exps st.pos / rate
        · simp [hT]
        · simp only [hT, if_false]
          rcases hrec : customer_generator rate T n (t + st.exps st.pos / rate)
              ⟨st.exps, st.pos + 1⟩ with ⟨res, st2⟩
          have hih := ih (t + st.exps st.pos / rate) ⟨st.exps, st.pos + 1⟩
          rw [hrec] at hih
          cases res <;> simpa using hih

/-- With a positive rate and a nonnegative draw stream, the generator either
completes normally or runs out of fuel; no exception is raised. -/
theorem customer_generator_ok_or_fuel (rate T : ℚ) (hr : 0 < rate) :
    ∀ (fuel : ℕ) (t : ℚ) (st : PyRandomState), (∀ n, 0 ≤ st.exps n) →
      (∃ arr, (customer_generator rate T fuel t st).1 = .ok arr) ∨
        (customer_generator rate T fuel t st).1 = .error .fuelExhausted := by
  intro fuel
  induction fuel with
  | zero => intro t st _; right; rfl
  | succ n ih =>
    intro t st hexp
    have hr0 : rate ≠ 0 := ne_of_gt hr
    have hgap : ¬ (st.exps st.pos / rate < 0) :=
      not_lt.mpr (div_nonneg (hexp _) (le_of_lt hr))
    unfold customer_generator expovariate
    simp only [hr0, if_false, hgap]
    by_cases hT : T ≤ t + st.exps st.pos / rate
    · left
      exact ⟨[], by simp [hT]⟩
    · simp only [hT, if_false]
      have hih := ih (t + st.exps st.pos / rate) ⟨st.exps, st.pos + 1⟩ hexp
      rcases hrec : customer_generator rate T n (t + st.exps st.pos / rate)
          ⟨st.exps, st.pos + 1⟩ with ⟨res, st2⟩
      rw [hrec] at hih
      rcases hih with ⟨arr, harr⟩ | hfe
      · left
        cases res with
        | error e => simp at harr
        | ok rest => exact ⟨(t + st.exps st.pos / rate) :: rest, by simp⟩
      · right
        cases res with
        | error e => simpa using hfe
        | ok rest => simp at hfe

/-- Success-path characterisation: any normal return of `run_simulation` is
the summary of the arrival list produced by the generator. -/
theorem run_simulation_ok {mt : ℤ → ℕ → ℚ} {ns : ℤ} {rate s T : ℚ} {seed : ℤ}
    {vb : Bool} {fuel : ℕ} {g : PyRandomState} {r : SimResult}
    (h : (run_simulation mt ns rate s T seed vb fuel g).1 = .ok r) :
    ∃ arr, (customer_generator rate T fuel 0 (PyRandomState.seed mt seed)).1 = .ok arr ∧
      r = mkResult ns.toNat s T arr := by
  unfold run_simulation at h
  by_cases h1 : ns ≤ 0
  · simp [h1] at h
  · by_cases h2 : T ≤ 0
    · simp [h1, h2] at h
    · simp only [h1, h2, if_false] at h
      rcases hg : customer_generator rate T fuel 0 (PyRandomState.seed mt seed)
        with ⟨res, st⟩
      rw [hg] at h
      cases res with
      | error e => simp at h
      | ok arr =>
        by_cases h3 : s < 0 ∧ arr ≠ []
        · simp [h3] at h
        · simp only [h3, if_false] at h
          exact ⟨arr, by simp [hg], by simpa using h.symm⟩

/-- Normal-return evaluation rule for `run_simulation`. -/
theorem run_simulation_eval (mt : ℤ → ℕ → ℚ) (ns : ℤ) (rate s T : ℚ) (seed : ℤ)
    (vb : Bool) (fuel : ℕ) (g : PyRandomState) (arr : List ℚ)
    (hns : ¬ ns ≤ 0) (hT : ¬ T ≤ 0)
    (hgen : (customer_generator rate T fuel 0 (PyRandomState.seed mt seed)).1 = .ok arr)
    (hsv : ¬ (s < 0 ∧ arr ≠ [])) :
    (run_simulation mt ns rate s T seed vb fuel g).1 =
      .ok (mkResult ns.toNat s T arr) := by
  unfold run_simulation
  rcases hg : customer_generator rate T fuel 0 (PyRandomState.seed mt seed) with ⟨res, st⟩
  rw [hg] at hgen
  simp only at hgen
  subst hgen
  simp [hns, hT, hg, hsv]

/-- A failure of the generator propagates out of `run_simulation` unchanged. -/
theorem run_simulation_genError (mt : ℤ → ℕ → ℚ) (ns : ℤ) (rate s T : ℚ) (seed : ℤ)
    (vb : Bool) (fuel : ℕ) (g : PyRandomState) (e : SimError)
    (hns : ¬ ns ≤ 0) (hT : ¬ T ≤ 0)
    (hgen : (customer_generator rate T fuel 0 (PyRandomState.seed mt seed)).1 = .error e) :
    (run_simulation mt ns rate s T seed vb fuel g).1 = .error e := by
  unfold run_simulation
  rcases hg : customer_generator rate T fuel 0 (PyRandomState.seed mt seed) with ⟨res, st⟩
  rw [hg] at hgen
  simp only at hgen
  subst hgen
  simp [hns, hT, hg]

/-! ### List, mean and rounding lemmas -/

/-- Keeping fewer elements yields a shorter `filterMap` list. -/
theorem length_filterMap_if_le {α β γ : Type} (l : List α) (p q : α → Prop)
    [DecidablePred p] [DecidablePred q] (f : α → β) (g : α → γ)
    (hpq : ∀ x ∈ l, p x → q x) :
    (l.filterMap fun x => if p x then some (f x) else none).length ≤
      (l.filterMap fun x => if q x then some (g x) else none).length := by
  induction l with
  | nil => simp
  | cons x l ih =>
    have ih' := ih fun y hy => hpq y (List.mem_cons_of_mem _ hy)
    by_cases hp : p x
    · have hq : q x := hpq x (List.mem_cons_self _ _) hp
      simpa [List.filterMap_cons, hp, hq] using Nat.succ_le_succ ih'
    · by_cases hq : q x
      · simp only [List.filterMap_cons, hp, hq, if_pos, if_neg, not_false_iff,
          List.length_cons]
        exact le_trans ih' (Nat.le_succ _)
      · simpa [List.filterMap_cons, hp, hq] using ih'

/-- If the two `filterMap` lists have equal length, the narrower condition
agrees with the wider one on every kept element, and the first list is the
second shifted by `s`. -/
theorem filterMap_if_shift {α : Type} (l : List α) (p q : α → Prop)
    [DecidablePred p] [DecidablePred q] (f g : α → ℚ) (s : ℚ)
    (hpq : ∀ x ∈ l, p x → q x) (hfg : ∀ x ∈ l, f x = g x + s)
    (hlen : (l.filterMap fun x => if p x then some (f x) else none).length =
      (l.filterMap fun x => if q x then some (g x) else none).length) :
    (l.filterMap fun x => if p x then some (f x) else none) =
      (l.filterMap fun x => if q x then some (g x) else none).map (· + s) := by
  induction l with
  | nil => simp
  | cons x l ih =>
    have hpq' := fun y hy => hpq y (List.mem_cons_of_mem _ hy)
    have hfg' := fun y hy => hfg y (List.mem_cons_of_mem _ hy)
    by_cases hp : p x
    · have hq : q x := hpq x (List.mem_cons_self _ _) hp
      have hx : f x = g x + s := hfg x (List.mem_cons_self _ _)
      simp only [List.filterMap_cons, hp, hq, if_pos, List.length_cons] at hlen
      simp only [List.filterMap_cons, hp, hq, if_pos, List.map_cons]
      rw [hx]
      exact congrArg _ (ih hpq' hfg' (Nat.succ_injective hlen))
    · by_cases hq : q x
      · exfalso
        have hle := length_filterMap_if_le l p q f g hpq'
        simp only [List.filterMap_cons, hp, hq, if_pos, if_neg, not_false_iff,
          List.length_cons] at hlen
        omega
      · simp only [List.filterMap_cons, hp, hq, if_neg, not_false_iff] at hlen ⊢
        exact ih hpq' hfg' hlen

/-- Shifting every element shifts the sum by `length * s`. -/
theorem sum_map_add_const (l : List ℚ) (s : ℚ) :
    (l.map (· + s)).sum = l.sum + l.length * s := by
  induction l with
  | nil => simp
  | cons x l ih =>
    simp only [List.map_cons, List.sum_cons, ih, List.length_cons]
    push_cast
    ring

/-- Shifting every element shifts the mean by `s`. -/
theorem np_mean_map_add (l : List ℚ) (s : ℚ) (hl : l ≠ []) :
    np_mean (l.map (· + s)) = np_mean l + s := by
  have h0 : l.length ≠ 0 := by
    simpa [List.length_eq_zero] using hl
  have hn : (l.length : ℚ) ≠ 0 := Nat.cast_ne_zero.mpr h0
  unfold np_mean
  rw [List.length_map, sum_map_add_const]
  field_simp
  ring

/-- Round-half-even moves a rational by at most `1/2`. -/
theorem abs_roundHalfEven_sub (q : ℚ) : |(roundHalfEven q : ℚ) - q| ≤ 1 / 2 := by
  unfold roundHalfEven
  have h1 : (⌊q⌋ : ℚ) ≤ q := Int.floor_le q
  have h2 : q < ⌊q⌋ + 1 := Int.lt_floor_add_one q
  by_cases hlt : q - ⌊q⌋ < 1 / 2
  · rw [if_pos hlt, abs_le]
    constructor <;> linarith
  · rw [if_neg hlt]
    by_cases hgt : 1 / 2 < q - ⌊q⌋
    · rw [if_pos hgt]
      push_cast
      rw [abs_le]
      constructor <;> linarith
    · rw [if_neg hgt]
      by_cases he : ⌊q⌋ % 2 = 0
      · rw [if_pos he, abs_le]
        constructor <;> linarith
      · rw [if_neg he]
        push_cast
        rw [abs_le]
        constructor <;> linarith

/-- `round2` moves a rational by at most `1/200`. -/
theorem abs_round2_sub (q : ℚ) : |round2 q - q| ≤ 1 / 200 := by
  have h := abs_roundHalfEven_sub (q * 100)
  unfold round2
  have heq : (roundHalfEven (q * 100) : ℚ) / 100 - q =
      ((roundHalfEven (q * 100) : ℚ) - q * 100) / 100 := by ring
  rw [heq, abs_div]
  have h100 : |(100 : ℚ)| = 100 := by norm_num
  rw [h100]
  linarith

/-- Rounding commutes with adding a constant up to `1/100`. -/
theorem round2_shift_bound (x s : ℚ) :
    |round2 (x + s) - (round2 x + s)| ≤ 1 / 100 := by
  have h1 := abs_round2_sub (x + s)
  have h2 := abs_round2_sub x
  have heq : round2 (x + s) - (round2 x + s) =
      (round2 (x + s) - (x + s)) + -(round2 x - x) := by ring
  rw [heq]
  have := abs_add (round2 (x + s) - (x + s)) (-(round2 x - x))
  rw [abs_neg] at this
  linarith

/-! ### Claim theorems -/

/-- C3: `run_simulation` is deterministic — for a fixed parameter tuple
`(n_servers, arrival_rate, service_time, sim_time, random_seed)` the returned
dictionary is the same across invocations, whatever the state of the global
random generator was when each call began (the call reseeds before drawing). -/
theorem C3_deterministic_output (mt : ℤ → ℕ → ℚ) (ns : ℤ) (rate s T : ℚ)
    (seed : ℤ) (vb : Bool) (fuel : ℕ) (g g' : PyRandomState) :
    (run_simulation mt ns rate s T seed vb fuel g).1 =
      (run_simulation mt ns rate s T seed vb fuel g').1 := rfl

/-- C8: the `verbose` flag only drives `print` calls; the returned statistics
(and even the final random-module state) are identical with and without it. -/
theorem C8_verbose_no_effect (mt : ℤ → ℕ → ℚ) (ns : ℤ) (rate s T : ℚ)
    (seed : ℤ) (fuel : ℕ) (g : PyRandomState) :
    run_simulation mt ns rate s T seed true fuel g =
      run_simulation mt ns rate s T seed false fuel g := rfl

/-- C10: the result and the final global random state are independent of the
generator state at call time (`random.seed` at line 56 overwrites it before
any draw), and as a side effect the call leaves the global generator holding
the stream determined by `random_seed` — the mutation other users of the
global `random` module (for example the workorder endpoints in
`src/server.py`) observe. -/
theorem C10_global_rng_frame (mt : ℤ → ℕ → ℚ) (ns : ℤ) (rate s T : ℚ)
    (seed : ℤ) (vb : Bool) (fuel : ℕ) (g g' : PyRandomState) :
    (run_simulation mt ns rate s T seed vb fuel g).1 =
      (run_simulation mt ns rate s T seed vb fuel g').1 ∧
    (run_simulation mt ns rate s T seed vb fuel g).2 =
      (run_simulation mt ns rate s T seed vb fuel g').2 ∧
    ((run_simulation mt ns rate s T seed vb fuel g).2).exps = mt seed := by
  refine ⟨rfl, rfl, ?_⟩
  unfold run_simulation
  by_cases h1 : ns ≤ 0
  · simp [h1, PyRandomState.seed]
  · by_cases h2 : T ≤ 0
    · simp [h1, h2, PyRandomState.seed]
    · simp only [h1, h2, if_false]
      rcases hg : customer_generator rate T fuel 0 (PyRandomState.seed mt seed)
        with ⟨res, st⟩
      have hex : st.exps = mt seed := by
        have h := customer_generator_exps rate T fuel 0 (PyRandomState.seed mt seed)
        rw [hg] at h
        exact h
      cases res with
      | error e => simpa using hex
      | ok arr =>
        by_cases h3 : s < 0 ∧ arr ≠ []
        · simpa [h3] using hex
        · simpa [h3] using hex

/-- C9: for every customer that completes service within the horizon, the
recorded system time is exactly its recorded wait time plus the fixed service
duration, and every recorded wait time is nonnegative (service cannot start
before arrival). -/
theorem C9_per_customer_arithmetic (c : ℕ) (s T : ℚ) (arr : List ℚ)
    (hs : 0 ≤ s) :
    (∀ w ∈ wait_times c s T arr, 0 ≤ w) ∧
    (∀ x ∈ system_times c s T arr,
      ∃ w ∈ wait_times c s T arr, 0 ≤ w ∧ x = w + s) := by
  constructor
  · intro w hw
    unfold wait_times at hw
    rw [List.mem_filterMap] at hw
    obtain ⟨i, hi, hval⟩ := hw
    by_cases hc : startTime c s (fun j => arr.getD j 0) i < T
    · rw [if_pos hc] at hval
      obtain rfl : startTime c s (fun j => arr.getD j 0) i - arr.getD i 0 = w :=
        Option.some.inj hval
      have hle : arr.getD i 0 ≤ startTime c s (fun j => arr.getD j 0) i :=
        le_startTime c s (fun j => arr.getD j 0) i
      linarith
    · rw [if_neg hc] at hval
      cases hval
  · intro x hx
    unfold system_times at hx
    rw [List.mem_filterMap] at hx
    obtain ⟨i, hi, hval⟩ := hx
    by_cases hc : startTime c s (fun j => arr.getD j 0) i + s < T
    · rw [if_pos hc] at hval
      have hv : startTime c s (fun j => arr.getD j 0) i + s - arr.getD i 0 = x :=
        Option.some.inj hval
      have hle : arr.getD i 0 ≤ startTime c s (fun j => arr.getD j 0) i :=
        le_startTime c s (fun j => arr.getD j 0) i
      have hstart : startTime c s (fun j => arr.getD j 0) i < T := by linarith
      refine ⟨startTime c s (fun j => arr.getD j 0) i - arr.getD i 0, ?_, ?_, ?_⟩
      · unfold wait_times
        rw [List.mem_filterMap]
        exact ⟨i, hi, by rw [if_pos hstart]⟩
      · linarith
      · rw [← hv]
        ring
    · rw [if_neg hc] at hval
      cases hval

/-- Witness for C9 at a concrete run: one customer, arrival time 1, unit
service, horizon 3. -/
theorem C9_per_customer_arithmetic_witness :
    (0 : ℚ) ≤ 1 ∧
    ((∀ w ∈ wait_times 1 1 3 [1], 0 ≤ w) ∧
      (∀ x ∈ system_times 1 1 3 [1],
        ∃ w ∈ wait_times 1 1 3 [1], 0 ≤ w ∧ x = w + 1)) :=
  ⟨by norm_num, C9_per_customer_arithmetic 1 1 3 [1] (by norm_num)⟩

/-- C6 (amended): `served_count` equals the length of `system_times` (both are
updated at the same departure), but `wait_times` is appended earlier, at
service start, so it is at least as long — strictly longer whenever a customer
is still in service at the horizon. -/
theorem C6_amended_aggregator (c : ℕ) (s T : ℚ) (arr : List ℚ) (hs : 0 ≤ s) :
    (mkResult c s T arr).total_customers = (system_times c s T arr).length ∧
    (system_times c s T arr).length ≤ (wait_times c s T arr).length := by
  refine ⟨rfl, ?_⟩
  unfold system_times wait_times
  refine length_filterMap_if_le _ _ _ _ _ fun i _ h => ?_
  have hle : startTime c s (fun j => arr.getD j 0) i ≤
      startTime c s (fun j => arr.getD j 0) i + s := le_add_of_nonneg_right hs
  linarith

/-- Witness for C6 (amended) at a concrete aggregator state. -/
theorem C6_amended_aggregator_witness :
    (0 : ℚ) ≤ 7 ∧
    (mkResult 1 7 4 [2]).total_customers = (system_times 1 7 4 [2]).length ∧
    (system_times 1 7 4 [2]).length ≤ (wait_times 1 7 4 [2]).length :=
  ⟨by norm_num, (C6_amended_aggregator 1 7 4 [2] (by norm_num)).1,
    (C6_amended_aggregator 1 7 4 [2] (by norm_num)).2⟩

/-- C7 (amended): raising the server count never delays any individual
customer — service starts (hence waits) are pointwise no larger with more
servers.  The run-level average over *recorded* waits can still increase,
because a larger pool lets additional delayed customers start (and be
recorded) before the horizon; see the accompanying counterexample. -/
theorem C7_amended_capacity (a : ℕ → ℚ) (s : ℚ)
    (ha : ∀ m n : ℕ, m ≤ n → a m ≤ a n) (c1 c2 : ℕ) (h1 : 0 < c1)
    (h12 : c1 ≤ c2) (i : ℕ) :
    startTime c2 s a i ≤ startTime c1 s a i ∧
    startTime c2 s a i - a i ≤ startTime c1 s a i - a i := by
  have h := startTime_anti_capacity s a ha c1 c2 h1 h12 i
  exact ⟨h, by linarith⟩

/-- Witness for C7 (amended) on a concrete arrival sequence. -/
theorem C7_amended_capacity_witness :
    startTime 2 1 zeroSeq 3 ≤ startTime 1 1 zeroSeq 3 ∧
    startTime 2 1 zeroSeq 3 - zeroSeq 3 ≤ startTime 1 1 zeroSeq 3 - zeroSeq 3 :=
  C7_amended_capacity zeroSeq 1 (fun _ _ _ => le_refl 0) 1 2 (by norm_num)
    (by norm_num) 3

/-- C1 (amended): `run_simulation` performs no up-front validation of its own.
`n_servers ≤ 0` raises (the `simpy.Resource` constructor) before the event
loop starts; `sim_time ≤ 0` raises inside `env.run`; `arrival_rate = 0` only
raises (`ZeroDivisionError`) once the generator process executes, i.e. after
scheduling has begun; and `service_time = 0` is accepted: the run completes
and returns a result dictionary instead of raising. -/
theorem C1_amended_validation (mt : ℤ → ℕ → ℚ) (ns : ℤ) (rate s T : ℚ)
    (seed : ℤ) (vb : Bool) (fuel : ℕ) (g : PyRandomState) :
    (ns ≤ 0 →
      (run_simulation mt ns rate s T seed vb fuel g).1 = .error .invalidCapacity) ∧
    (0 < ns → T ≤ 0 →
      (run_simulation mt ns rate s T seed vb fuel g).1 = .error .untilNotInFuture) ∧
    (0 < ns → 0 < T → rate = 0 → 0 < fuel →
      (run_simulation mt ns rate s T seed vb fuel g).1 = .error .zeroDivision) ∧
    (0 < ns → 0 < T → 0 < rate → s = 0 → (∀ n, 0 ≤ mt seed n) →
      (run_simulation mt ns rate s T seed vb fuel g).1 ≠ .error .fuelExhausted →
      isOkE (run_simulation mt ns rate s T seed vb fuel g).1 = true) := by
  refine ⟨?_, ?_, ?_, ?_⟩
  · intro h
    unfold run_simulation
    rw [if_pos h]
  · intro h0 hT
    unfold run_simulation
    rw [if_neg (by omega), if_pos hT]
  · intro h0 hT hrate hfuel
    cases fuel with
    | zero => omega
    | succ n =>
      refine run_simulation_genError mt ns rate s T seed vb _ g _ (by omega)
        (not_le.mpr hT) ?_
      unfold customer_generator expovariate
      simp [hrate]
  · intro h0 hT hrate hs hexp hfe
    rcases customer_generator_ok_or_fuel rate T hrate fuel 0
        (PyRandomState.seed mt seed) hexp with ⟨arr, harr⟩ | hful
    · have hok := run_simulation_eval mt ns rate s T seed vb fuel g arr (by omega)
        (not_le.mpr hT) harr (by simp [hs])
      rw [hok]
      rfl
    · exact absurd (run_simulation_genError mt ns rate s T seed vb fuel g _
        (by omega) (not_le.mpr hT) hful) hfe

/-- C2 (amended): in every normal return, `avg_system_time` is `null` exactly
when `total_customers = 0` (both are driven by the `system_times` list); but
this does not extend to `avg_wait_time`, which is computed from the
`wait_times` list fed at service start — a customer still in service at the
horizon makes `avg_wait_time` non-null while `total_customers = 0` (see the
accompanying counterexample). -/
theorem C2_amended_null_stats (mt : ℤ → ℕ → ℚ) (ns : ℤ) (rate s T : ℚ)
    (seed : ℤ) (vb : Bool) (fuel : ℕ) (g : PyRandomState) (r : SimResult)
    (h : (run_simulation mt ns rate s T seed vb fuel g).1 = .ok r) :
    r.avg_system_time = none ↔ r.total_customers = 0 := by
  obtain ⟨arr, -, rfl⟩ := run_simulation_ok h
  by_cases hsys : system_times ns.toNat s T arr = []
  · simp [mkResult, hsys]
  · simp [mkResult, hsys, List.length_eq_zero]

/-- C4 (amended): `sim_time = 0` does not produce the empty result — it makes
`env.run` raise `ValueError` (`until` must exceed the current time), so no
dictionary is returned.  The empty result `{0, null, null}` is produced for
any positive horizon that the first arrival does not beat. -/
theorem C4_amended_zero_horizon (mt : ℤ → ℕ → ℚ) (ns : ℤ) (rate s T : ℚ)
    (seed : ℤ) (vb : Bool) (fuel : ℕ) (g : PyRandomState) :
    (0 < ns → T = 0 →
      (run_simulation mt ns rate s T seed vb fuel g).1 = .error .untilNotInFuture) ∧
    (0 < ns → 0 < T → rate ≠ 0 → T ≤ mt seed 0 / rate → 0 < fuel →
      (run_simulation mt ns rate s T seed vb fuel g).1 = .ok ⟨0, none, none⟩) := by
  constructor
  · intro h0 hT
    unfold run_simulation
    rw [if_neg (by omega), if_pos (le_of_eq hT)]
  · intro h0 hT hrate hge hfuel
    have hgen : (customer_generator rate T fuel 0 (PyRandomState.seed mt seed)).1 =
        .ok [] := by
      cases fuel with
      | zero => omega
      | succ n =>
        have hgap : ¬ (mt seed 0 / rate < 0) := by
          intro hneg
          have : T ≤ mt seed 0 / rate := hge
          linarith
        unfold customer_generator expovariate
        simp [hrate, hgap, PyRandomState.seed, hge]
    have hok := run_simulation_eval mt ns rate s T seed vb fuel g [] (by omega)
      (not_le.mpr hT) hgen (by simp)
    rw [hok]
    norm_num [mkResult, wait_times, system_times]

/-- C5 (amended): whenever every customer that started service also departed
within the horizon (`wait_times` and `system_times` have the same length), the
two rounded means satisfy `avg_system_time ≈ avg_wait_time + service_time`
within `0.01`.  Without that condition the relation can fail by more than any
rounding tolerance, because `avg_wait_time` also averages customers whose
service is cut off by the horizon (see the accompanying counterexample). -/
theorem C5_amended_conservation (mt : ℤ → ℕ → ℚ) (ns : ℤ) (rate s T : ℚ)
    (seed : ℤ) (vb : Bool) (fuel : ℕ) (g : PyRandomState) (arr : List ℚ)
    (r : SimResult)
    (hgen : (customer_generator rate T fuel 0 (PyRandomState.seed mt seed)).1 = .ok arr)
    (hr : (run_simulation mt ns rate s T seed vb fuel g).1 = .ok r)
    (hs : 0 ≤ s)
    (hlen : (system_times ns.toNat s T arr).length = (wait_times ns.toNat s T arr).length)
    (hpos : 0 < r.total_customers) :
    r.avg_wait_time ≠ none ∧ r.avg_system_time ≠ none ∧
      |r.avg_system_time.getD 0 - (r.avg_wait_time.getD 0 + s)| ≤ 1 / 100 := by
  obtain ⟨arr', harr', rfl⟩ := run_simulation_ok hr
  rw [hgen] at harr'
  obtain rfl : arr = arr' := Except.ok.inj harr'
  simp only [mkResult] at hpos ⊢
  have hS : system_times ns.toNat s T arr ≠ [] := by
    intro hnil
    rw [hnil] at hpos
    simp at hpos
  have hW : wait_times ns.toNat s T arr ≠ [] := by
    intro hnil
    rw [hnil] at hlen
    simp only [List.length_nil] at hlen
    exact hS (List.length_eq_zero.mp hlen)
  rw [if_neg hW, if_neg hS]
  refine ⟨by simp, by simp, ?_⟩
  simp only [Option.getD_some]
  have hshift : system_times ns.toNat s T arr =
      (wait_times ns.toNat s T arr).map (· + s) := by
    unfold system_times wait_times at hlen ⊢
    refine filterMap_if_shift (List.range arr.length)
      (fun i => startTime ns.toNat s (fun j => arr.getD j 0) i + s < T)
      (fun i => startTime ns.toNat s (fun j => arr.getD j 0) i < T)
      (fun i => startTime ns.toNat s (fun j => arr.getD j 0) i + s - arr.getD i 0)
      (fun i => startTime ns.toNat s (fun j => arr.getD j 0) i - arr.getD i 0)
      s (fun i _ h => ?_) (fun i _ => by ring) hlen
    have hle : startTime ns.toNat s (fun j => arr.getD j 0) i ≤
        startTime ns.toNat s (fun j => arr.getD j 0) i + s := le_add_of_nonneg_right hs
    linarith
  rw [hshift, np_mean_map_add _ _ hW]
  exact round2_shift_bound _ s

/-! ### Concrete run evaluations -/

/-- With unit draws, capacity 1, `service_time = 0` and horizon 2, the run
completes normally: one customer arrives at time 1, is served instantly. -/
theorem runOnes_eval :
    (run_simulation mtOnes 1 1 0 2 7 false 5 gZero).1 = .ok ⟨1, some 0, some 0⟩ := by
  norm_num [run_simulation, customer_generator, expovariate, mtOnes, gZero,
    PyRandomState.seed, mkResult, wait_times, system_times, startTime, chainMax,
    np_mean, round2, roundHalfEven, Int.toNat_ofNat, List.getD, List.range_succ,
    List.filterMap]

/-- Gaps 1, 1, 10 with horizon 9/2 and service 2: two customers start, only
the first departs inside the horizon. -/
theorem runC5_eval :
    (run_simulation mtC5 1 1 2 (9/2) 3 false 5 gZero).1 =
      .ok ⟨1, some (1/2), some 2⟩ := by
  norm_num [run_simulation, customer_generator, expovariate, mtC5, gZero,
    PyRandomState.seed, mkResult, wait_times, system_times, startTime, chainMax,
    np_mean, round2, roundHalfEven, Int.toNat_ofNat, List.getD, List.range_succ,
    List.filterMap, Int.fract]
  all_goals simp

/-- Gaps 1, 1, 10 with horizon 4 and unit service: both customers start and
depart inside the horizon. -/
theorem runC5w_eval :
    (run_simulation mtC5 1 1 1 4 3 false 5 gZero).1 = .ok ⟨2, some 0, some 1⟩ := by
  norm_num [run_simulation, customer_generator, expovariate, mtC5, gZero,
    PyRandomState.seed, mkResult, wait_times, system_times, startTime, chainMax,
    np_mean, round2, roundHalfEven, Int.toNat_ofNat, List.getD, List.range_succ,
    List.filterMap, Int.fract]
  all_goals simp

/-- The generator for the run of `runC5w_eval`. -/
theorem genC5w :
    (customer_generator 1 4 5 0 (PyRandomState.seed mtC5 3)).1 = .ok [1, 2] := by
  norm_num [customer_generator, expovariate, mtC5, PyRandomState.seed]

/-- Matching list lengths for the run of `runC5w_eval`. -/
theorem lenC5w :
    (system_times (1 : ℤ).toNat 1 4 [1, 2]).length =
      (wait_times (1 : ℤ).toNat 1 4 [1, 2]).length := by
  norm_num [wait_times, system_times, startTime, chainMax, List.range_succ,
    List.filterMap, List.getD, Int.toNat_ofNat]

/-- Gap 2 then 9, horizon 4, service 7: the single customer starts at time 2
but is still in service when the horizon cuts the run off. -/
theorem runC6_eval :
    (run_simulation mtC6 1 1 7 4 0 false 3 gZero).1 = .ok ⟨0, some 0, none⟩ := by
  norm_num [run_simulation, customer_generator, expovariate, mtC6, gZero,
    PyRandomState.seed, mkResult, wait_times, system_times, startTime, chainMax,
    np_mean, round2, roundHalfEven, Int.toNat_ofNat, List.getD, List.range_succ,
    List.filterMap, Int.fract]

/-- One wait time but no system time is recorded in the run of `runC6_eval`. -/
theorem lenC6_wait : (wait_times 1 7 4 [2]).length = 1 := by
  norm_num [wait_times, startTime, chainMax, List.range_succ, List.filterMap,
    List.getD]

/-- No system time is recorded in the run of `runC6_eval`. -/
theorem lenC6_system : (system_times 1 7 4 [2]).length = 0 := by
  norm_num [system_times, startTime, chainMax, List.range_succ, List.filterMap,
    List.getD]

/-- The burst stream `mtC7` at rate 1 with horizon 3/2 produces the four
arrival times of `arrC7`. -/
theorem genC7 :
    (customer_generator 1 (3/2) 8 0 (PyRandomState.seed mtC7 42)).1 = .ok arrC7 := by
  norm_num [customer_generator, expovariate, mtC7, PyRandomState.seed, arrC7,
    List.getD]

/-- The unit-service start times of the `arrC7` customers with one server. -/
theorem startC7_one (i : ℕ) (hi : i < 4) :
    startTime 1 1 (fun j => arrC7.getD j 0) i = [1/10, 11/10, 21/10, 31/10].getD i 0 := by
  interval_cases i <;>
    norm_num [startTime, chainMax, arrC7, List.getD]

/-- The unit-service start times of the `arrC7` customers with two servers. -/
theorem startC7_two (i : ℕ) (hi : i < 4) :
    startTime 2 1 (fun j => arrC7.getD j 0) i = [1/10, 9/50, 11/10, 59/50].getD i 0 := by
  interval_cases i <;>
    norm_num [startTime, chainMax, arrC7, List.getD]

/-- Recorded waits for `arrC7`, one server, horizon 3/2. -/
theorem waitC7_one : wait_times 1 1 (3/2) arrC7 = [0, 23/25] := by
  have h0 := startC7_one 0 (by norm_num)
  have h1 := startC7_one 1 (by norm_num)
  have h2 := startC7_one 2 (by norm_num)
  have h3 := startC7_one 3 (by norm_num)
  norm_num [arrC7] at h0 h1 h2 h3
  norm_num [wait_times, List.range_succ, arrC7, List.filterMap_cons,
    List.filterMap_nil, h0, h1, h2, h3, List.getD]

/-- Recorded system times for `arrC7`, one server, horizon 3/2. -/
theorem sysC7_one : system_times 1 1 (3/2) arrC7 = [1] := by
  have h0 := startC7_one 0 (by norm_num)
  have h1 := startC7_one 1 (by norm_num)
  have h2 := startC7_one 2 (by norm_num)
  have h3 := startC7_one 3 (by norm_num)
  norm_num [arrC7] at h0 h1 h2 h3
  norm_num [system_times, List.range_succ, arrC7, List.filterMap_cons,
    List.filterMap_nil, h0, h1, h2, h3, List.getD]

/-- Recorded waits for `arrC7`, two servers, horizon 3/2. -/
theorem waitC7_two : wait_times 2 1 (3/2) arrC7 = [0, 0, 91/100, 49/50] := by
  have h0 := startC7_two 0 (by norm_num)
  have h1 := startC7_two 1 (by norm_num)
  have h2 := startC7_two 2 (by norm_num)
  have h3 := startC7_two 3 (by norm_num)
  norm_num [arrC7] at h0 h1 h2 h3
  norm_num [wait_times, List.range_succ, arrC7, List.filterMap_cons,
    List.filterMap_nil, h0, h1, h2, h3, List.getD]

/-- Recorded system times for `arrC7`, two servers, horizon 3/2. -/
theorem sysC7_two : system_times 2 1 (3/2) arrC7 = [1, 1] := by
  have h0 := startC7_two 0 (by norm_num)
  have h1 := startC7_two 1 (by norm_num)
  have h2 := startC7_two 2 (by norm_num)
  have h3 := startC7_two 3 (by norm_num)
  norm_num [arrC7] at h0 h1 h2 h3
  norm_num [system_times, List.range_succ, arrC7, List.filterMap_cons,
    List.filterMap_nil, h0, h1, h2, h3, List.getD]

/-- Result summary for `arrC7` with one server. -/
theorem mkResultC7_one : mkResult 1 1 (3/2) arrC7 = ⟨1, some (23/50), some 1⟩ := by
  rw [mkResult, waitC7_one, sysC7_one]
  norm_num [np_mean, round2, roundHalfEven, Int.fract]
  all_goals simp

/-- Result summary for `arrC7` with two servers. -/
theorem mkResultC7_two : mkResult 2 1 (3/2) arrC7 = ⟨2, some (47/100), some 1⟩ := by
  rw [mkResult, waitC7_two, sysC7_two]
  norm_num [np_mean, round2, roundHalfEven, Int.fract]
  all_goals simp

/-- Full run on `mtC7` with one server. -/
theorem runC7_one :
    (run_simulation mtC7 1 1 1 (3/2) 42 false 8 gZero).1 =
      .ok ⟨1, some (23/50), some 1⟩ := by
  rw [run_simulation_eval mtC7 1 1 1 (3/2) 42 false 8 gZero arrC7 (by norm_num)
    (by norm_num) genC7 (by norm_num)]
  norm_num [Int.toNat_one, mkResultC7_one]

/-- Full run on `mtC7` with two servers. -/
theorem runC7_two :
    (run_simulation mtC7 2 1 1 (3/2) 42 false 8 gZero).1 =
      .ok ⟨2, some (47/100), some 1⟩ := by
  rw [run_simulation_eval mtC7 2 1 1 (3/2) 42 false 8 gZero arrC7 (by norm_num)
    (by norm_num) genC7 (by norm_num)]
  have h2 : (2 : ℤ).toNat = 2 := rfl
  rw [h2, mkResultC7_two]

/-! ### Counterexamples and witnesses for the run-level claims -/

/-- C1 counterexample: `service_time = 0` is an invalid parameter according to
the claim (`service_time ≤ 0`), yet `run_simulation` raises nothing — it
completes and returns a result dictionary, so the claimed `InvalidParameter`
failure does not occur. -/
theorem C1_invalid_parameter_cex :
    (run_simulation mtOnes 1 1 0 2 7 false 5 gZero).1 = .ok ⟨1, some 0, some 0⟩ ∧
    isOkE (run_simulation mtOnes 1 1 0 2 7 false 5 gZero).1 = true := by
  refine ⟨runOnes_eval, ?_⟩
  rw [runOnes_eval]
  rfl

/-- Witness for C1 (amended), exercising all four conjuncts: capacity error,
horizon error, division-by-zero during the run, and normal completion with
`service_time = 0`. -/
theorem C1_amended_validation_witness :
    (run_simulation mtOnes 0 5 3 10 42 false 3 gZero).1 = .error .invalidCapacity ∧
    (run_simulation mtOnes 1 5 3 (-2) 42 false 3 gZero).1 = .error .untilNotInFuture ∧
    (run_simulation mtOnes 1 0 3 10 42 false 3 gZero).1 = .error .zeroDivision ∧
    isOkE (run_simulation mtOnes 1 1 0 2 7 false 5 gZero).1 = true := by
  refine ⟨(C1_amended_validation mtOnes 0 5 3 10 42 false 3 gZero).1 (by norm_num),
    (C1_amended_validation mtOnes 1 5 3 (-2) 42 false 3 gZero).2.1 (by norm_num)
      (by norm_num),
    (C1_amended_validation mtOnes 1 0 3 10 42 false 3 gZero).2.2.1 (by norm_num)
      (by norm_num) rfl (by norm_num),
    (C1_amended_validation mtOnes 1 1 0 2 7 false 5 gZero).2.2.2 (by norm_num)
      (by norm_num) (by norm_num) rfl (fun n => by norm_num [mtOnes]) ?_⟩
  rw [runOnes_eval]
  simp

/-- C2 counterexample: a run in which the only customer is still being served
when the horizon ends returns `total_customers = 0` with `avg_wait_time`
non-null — the claim that `total_customers = 0` forces both averages to be
null is false. -/
theorem C2_empty_run_cex :
    (run_simulation mtC2 1 1 10 5 42 false 4 gZero).1 = .ok ⟨0, some 0, none⟩ ∧
    (SimResult.mk 0 (some 0) none).total_customers = 0 ∧
    (SimResult.mk 0 (some 0) none).avg_wait_time ≠ none := by
  refine ⟨?_, rfl, by simp⟩
  norm_num [run_simulation, customer_generator, expovariate, mtC2, gZero,
    PyRandomState.seed, mkResult, wait_times, system_times, startTime, chainMax,
    np_mean, round2, roundHalfEven, Int.toNat_ofNat, List.getD, List.range_succ,
    List.filterMap]

/-- Witness for C2 (amended) at a normally completed run. -/
theorem C2_amended_null_stats_witness :
    ((SimResult.mk 1 (some 0) (some 0)).avg_system_time = none ↔
      (SimResult.mk 1 (some 0) (some 0)).total_customers = 0) :=
  C2_amended_null_stats mtOnes 1 1 0 2 7 false 5 gZero _ runOnes_eval

/-- C4 counterexample: with `sim_time = 0` and otherwise valid parameters the
call raises `ValueError` out of `env.run` instead of returning the empty
result the claim requires. -/
theorem C4_zero_horizon_cex :
    (run_simulation mtOnes 2 5 3 0 42 false 5 gZero).1 = .error .untilNotInFuture ∧
    (run_simulation mtOnes 2 5 3 0 42 false 5 gZero).1 ≠ .ok ⟨0, none, none⟩ := by
  have h : (run_simulation mtOnes 2 5 3 0 42 false 5 gZero).1 =
      .error .untilNotInFuture := by
    norm_num [run_simulation]
  exact ⟨h, by rw [h]; simp⟩

/-- Witness for C4 (amended): the error at `sim_time = 0` and the genuine
empty result at a positive horizon the first arrival does not beat. -/
theorem C4_amended_zero_horizon_witness :
    (run_simulation mtOnes 1 1 1 0 9 false 3 gZero).1 = .error .untilNotInFuture ∧
    (run_simulation mtOnes 1 1 1 1 9 false 3 gZero).1 = .ok ⟨0, none, none⟩ :=
  ⟨(C4_amended_zero_horizon mtOnes 1 1 1 0 9 false 3 gZero).1 (by norm_num) rfl,
    (C4_amended_zero_horizon mtOnes 1 1 1 1 9 false 3 gZero).2 (by norm_num)
      (by norm_num) (by norm_num) (by norm_num [mtOnes]) (by norm_num)⟩

/-- C5 counterexample: a run with `total_customers = 1` where
`avg_system_time = 2` but `avg_wait_time + service_time = 1/2 + 2`, off by
`1/2` — far outside any rounding tolerance, because the second customer's wait
is recorded while its service is cut off by the horizon. -/
theorem C5_conservation_cex :
    (run_simulation mtC5 1 1 2 (9/2) 3 false 5 gZero).1 =
      .ok ⟨1, some (1/2), some 2⟩ ∧
    0 < (SimResult.mk 1 (some (1/2)) (some 2)).total_customers ∧
    ¬ |(2 : ℚ) - (1/2 + 2)| ≤ 1/100 := by
  refine ⟨runC5_eval, by norm_num, ?_⟩
  intro habs
  rw [show ((2 : ℚ) - (1/2 + 2)) = -(1/2) by norm_num, abs_neg,
    abs_of_nonneg (by norm_num : (0 : ℚ) ≤ 1/2)] at habs
  norm_num at habs

/-- Witness for C5 (amended) at a run in which both customers finish. -/
theorem C5_amended_conservation_witness :
    (SimResult.mk 2 (some 0) (some 1)).avg_wait_time ≠ none ∧
    (SimResult.mk 2 (some 0) (some 1)).avg_system_time ≠ none ∧
    |(SimResult.mk 2 (some 0) (some 1)).avg_system_time.getD 0 -
      ((SimResult.mk 2 (some 0) (some 1)).avg_wait_time.getD 0 + 1)| ≤ 1/100 :=
  C5_amended_conservation mtC5 1 1 1 4 3 false 5 gZero [1, 2] _ genC5w
    runC5w_eval (by norm_num) lenC5w (by norm_num)

/-- C6 counterexample: at the end of a run one wait time is recorded with no
matching system time (`served_count = 0`), so the wait/system/served triple is
not kept in lock-step as claimed: `wait_times` was appended at service start,
before the departure that never happened inside the horizon. -/
theorem C6_aggregator_cex :
    (run_simulation mtC6 1 1 7 4 0 false 3 gZero).1 = .ok ⟨0, some 0, none⟩ ∧
    (wait_times 1 7 4 [2]).length = 1 ∧
    (system_times 1 7 4 [2]).length = 0 :=
  ⟨runC6_eval, lenC6_wait, lenC6_system⟩

/-- C7 counterexample: same seed and parameters, capacities 1 < 2 — with two
servers the returned `avg_wait_time` is `0.47`, strictly larger than the
`0.46` returned with one server, because the extra capacity lets two more
delayed customers start (and be recorded) before the horizon. -/
theorem C7_capacity_cex :
    (run_simulation mtC7 1 1 1 (3/2) 42 false 8 gZero).1 =
      .ok ⟨1, some (23/50), some 1⟩ ∧
    (run_simulation mtC7 2 1 1 (3/2) 42 false 8 gZero).1 =
      .ok ⟨2, some (47/100), some 1⟩ ∧
    (23/50 : ℚ) < 47/100 :=
  ⟨runC7_one, runC7_two, by norm_num⟩
